import Mathlib

/-!
Verification development for the Peloton snippet: the host-cache lease state
machine (`pkg/hostmgr/p2k/hostcache/summary.go`), the goal-state action
tables (`jobmgr` goalstate files), and the leaf resource-pool queue
operations (`resmgr/respool`).

Machine floats (`float64`) are modelled by exact rationals; the claims
settled here do not depend on rounding behaviour.  Go maps are modelled by
association lists; the randomly generated UUIDs of `uuid.New()` are modelled
by an explicit `fresh` argument constrained to be a non-empty string.
-/

namespace Peloton

/-- Modelled from the spec: `pkg/hostmgr/scalar.Resources` (the package is
not part of the snippet; only its tests are).  "A 4-tuple of non-negative
floats CPU, Mem, Disk, GPU", modelled over exact rationals. -/
structure Resources where
  cpu : ℚ
  mem : ℚ
  disk : ℚ
  gpu : ℚ
deriving DecidableEq, Repr

namespace Resources

/-- The zero value `scalar.Resources` of Go. -/
def zero : Resources := ⟨0, 0, 0, 0⟩

/-- Modelled from the spec: `Add` is total and componentwise. -/
def add (a b : Resources) : Resources :=
  ⟨a.cpu + b.cpu, a.mem + b.mem, a.disk + b.disk, a.gpu + b.gpu⟩

/-- Modelled from the spec: "Contains(x) iff every component is at least
x's". -/
def contains (a b : Resources) : Bool :=
  decide (b.cpu ≤ a.cpu) && decide (b.mem ≤ a.mem) &&
    decide (b.disk ≤ a.disk) && decide (b.gpu ≤ a.gpu)

/-- Modelled from the spec: "TrySubtract succeeds iff every component of the
left dominates the right". -/
def trySubtract (a b : Resources) : Option Resources :=
  if a.contains b then
    some ⟨a.cpu - b.cpu, a.mem - b.mem, a.disk - b.disk, a.gpu - b.gpu⟩
  else
    none

end Resources

/-- `HostStatus` of `summary.go`: Ready/Placing/Reserved/Held. -/
inductive HostStatus where
  | ReadyHost
  | PlacingHost
  | ReservedHost
  | HeldHost
deriving DecidableEq, Repr

/-- `hostmgr.HostFilterResult` values returned by `TryMatch` and
`matchHostFilter`. -/
inductive HostFilterResult where
  | MatchFound
  | MismatchStatus
  | InsufficientResources
  | MismatchConstraints
deriving DecidableEq, Repr

/-- The part of `hostmgr.HostFilter` consumed by `summary.go`: the host
hints (`filter.GetHint().GetHostHint()`, reduced to their hostnames) and the
optional minimum resource constraint
(`filter.GetResourceConstraint().GetMinimum()`). -/
structure HostFilter where
  hostHints : List String
  minimum : Option Resources
deriving DecidableEq, Repr

/-- `emptyLeaseID` of `summary.go`: used when the host is not leased. -/
def emptyLeaseID : String := ""

/-- The state of `hostSummary` in `summary.go`.  The Go map
`podToResMap : map[string]scalar.Resources` is an association list here;
`heldPodIDs : map[string]time.Time` keeps only its keys, since none of the
embedded operations reads the expiration values. -/
structure HostSummary where
  hostname : String
  capacity : Resources
  allocated : Resources
  podToResMap : List (String × Resources)
  heldPodIDs : List String
  status : HostStatus
  leaseID : String
  version : String
deriving DecidableEq, Repr

/-- Association-list lookup for the pod map (Go `a.podToResMap[podID]`). -/
def podLookup (m : List (String × Resources)) (k : String) : Option Resources :=
  match m with
  | [] => none
  | (k2, v) :: t => if k2 = k then some v else podLookup t k

/-- Sum of the resources of all pods in a pod map (the loop body of
`calculateAllocated`). -/
def sumPodRes (m : List (String × Resources)) : Resources :=
  m.foldl (fun acc p => acc.add p.snd) Resources.zero

/-- Insert a pod into the pod map (Go `a.podToResMap[podID] = res`). -/
def podInsert (m : List (String × Resources)) (k : String) (v : Resources) :
    List (String × Resources) :=
  if (podLookup m k).isSome then
    m.map (fun p => if p.fst = k then (k, v) else p)
  else
    m ++ [(k, v)]

namespace HostSummary

/-- `newHostSummary` of `summary.go`: a Ready host with empty pod map, empty
held set and empty lease. -/
def newHostSummary (hostname : String) (r : Resources) (version : String) :
    HostSummary :=
  { hostname := hostname
    capacity := r
    allocated := Resources.zero
    podToResMap := []
    heldPodIDs := []
    status := HostStatus.ReadyHost
    leaseID := emptyLeaseID
    version := version }

/-- `getAvailable` of `summary.go`: capacity minus allocation; on
over-allocation the Go code logs and continues with the zero value. -/
def getAvailable (a : HostSummary) : Resources :=
  match a.capacity.trySubtract a.allocated with
  | some r => r
  | none => Resources.zero

/-- `getResetStatus` of `summary.go`: Held when some pod holds the host,
Ready otherwise. -/
def getResetStatus (a : HostSummary) : HostStatus :=
  if a.heldPodIDs.isEmpty then HostStatus.ReadyHost else HostStatus.HeldHost

/-- `casStatus` (lower-case) of `summary.go`.  `fresh` stands for the UUID
that `uuid.New()` would mint; it is consumed only on entry to
Placing/Reserved. -/
def casStatus (a : HostSummary) (oldStatus newStatus : HostStatus)
    (fresh : String) : Except String HostSummary :=
  if a.status ≠ oldStatus then
    Except.error "Invalid old status"
  else
    match newStatus with
    | HostStatus.ReadyHost =>
        Except.ok { a with status := newStatus, leaseID := emptyLeaseID }
    | HostStatus.PlacingHost =>
        Except.ok { a with status := newStatus, leaseID := fresh }
    | HostStatus.ReservedHost =>
        Except.ok { a with status := newStatus, leaseID := fresh }
    | HostStatus.HeldHost =>
        Except.ok { a with status := newStatus, leaseID := emptyLeaseID }

/-- `CasStatus` (exported) of `summary.go`: wraps `casStatus`, wrapping the
error text. -/
def CasStatus (a : HostSummary) (old new : HostStatus) (fresh : String) :
    Except String HostSummary :=
  match a.casStatus old new fresh with
  | Except.error e => Except.error ("failed to set cas status: " ++ e)
  | Except.ok a2 => Except.ok a2

/-- `matchHostFilter` of `summary.go`: checks the optional minimum resource
constraint against available resources. -/
def matchHostFilter (a : HostSummary) (c : HostFilter) : HostFilterResult :=
  match c.minimum with
  | some minRes =>
      if a.getAvailable.contains minRes then
        HostFilterResult.MatchFound
      else
        HostFilterResult.InsufficientResources
  | none => HostFilterResult.MatchFound

/-- `TryMatch` of `summary.go`.  The Go method returns a `Match` struct and
mutates the receiver; here the result and the post-state are paired. -/
def tryMatch (a : HostSummary) (filter : HostFilter) (fresh : String) :
    HostFilterResult × HostSummary :=
  if a.status ≠ HostStatus.ReadyHost ∧ a.status ≠ HostStatus.HeldHost then
    (HostFilterResult.MismatchStatus, a)
  else if a.status = HostStatus.HeldHost ∧
      ¬ (filter.hostHints.any (fun h => decide (h = a.hostname))) then
    (HostFilterResult.MismatchStatus, a)
  else
    let result := a.matchHostFilter filter
    if result ≠ HostFilterResult.MatchFound then
      (result, a)
    else
      match a.casStatus a.status HostStatus.PlacingHost fresh with
      | Except.error _ => (HostFilterResult.MismatchStatus, a)
      | Except.ok a2 => (HostFilterResult.MatchFound, a2)

/-- `validateNewPods` of `summary.go`: errors when a new pod already exists
on the host or the aggregate of the new pods does not fit the available
resources. -/
def validateNewPods (a : HostSummary)
    (newPodToResMap : List (String × Resources)) : Except String Unit :=
  if newPodToResMap.any (fun p => (podLookup a.podToResMap p.fst).isSome) then
    Except.error "pod already exists on the host"
  else
    let needed := sumPodRes newPodToResMap
    if a.getAvailable.contains needed then
      Except.ok ()
    else
      Except.error "host has insufficient resources"

/-- `updatePodToResMap` of `summary.go`: adds the new pods and recomputes
the allocation (`calculateAllocated`). -/
def updatePodToResMap (a : HostSummary)
    (newPodToResMap : List (String × Resources)) : HostSummary :=
  let m := newPodToResMap.foldl (fun m p => podInsert m p.fst p.snd) a.podToResMap
  { a with podToResMap := m, allocated := sumPodRes m }

/-- `CompleteLease` of `summary.go`.  The Go method mutates the receiver and
returns an error; here the optional error and the post-state are paired.
The lease is terminated (status reset, lease cleared) before the new pods
are validated. -/
def completeLease (a : HostSummary) (leaseID : String)
    (newPodToResMap : List (String × Resources)) :
    Option String × HostSummary :=
  if a.status ≠ HostStatus.PlacingHost then
    (some "host status is not Placing", a)
  else if a.leaseID ≠ leaseID then
    (some "host leaseID does not match", a)
  else
    match a.casStatus HostStatus.PlacingHost a.getResetStatus emptyLeaseID with
    | Except.error e => (some ("failed to unlock host: " ++ e), a)
    | Except.ok a2 =>
        match a2.validateNewPods newPodToResMap with
        | Except.error e => (some ("pod validation failed: " ++ e), a2)
        | Except.ok _ => (none, a2.updatePodToResMap newPodToResMap)

/-- `TerminateLease` of `summary.go`: only valid in Placing; resets the
status to Ready/Held. -/
def TerminateLease (a : HostSummary) : Except String HostSummary :=
  if a.status ≠ HostStatus.PlacingHost then
    Except.error "invalid status"
  else
    match a.casStatus HostStatus.PlacingHost a.getResetStatus emptyLeaseID with
    | Except.error e => Except.error ("failed to set cas status: " ++ e)
    | Except.ok a2 => Except.ok a2

/-- `ReleasePodResources` of `summary.go`: removes a pod and recomputes the
allocation; releasing an absent pod only logs. -/
def ReleasePodResources (a : HostSummary) (podID : String) : HostSummary :=
  if (podLookup a.podToResMap podID).isSome then
    let m := a.podToResMap.filter (fun p => decide (p.fst ≠ podID))
    { a with podToResMap := m, allocated := sumPodRes m }
  else
    a

end HostSummary

/-- The lease invariant of host summaries: the lease is non-empty exactly in
Placing/Reserved status. -/
def LeaseInv (a : HostSummary) : Prop :=
  a.leaseID ≠ emptyLeaseID ↔
    (a.status = HostStatus.PlacingHost ∨ a.status = HostStatus.ReservedHost)

/-- States reachable from `newHostSummary` through the exported operations
of `summary.go`.  The `fresh` arguments model `uuid.New()`, which never
returns the empty string. -/
inductive Reachable : HostSummary → Prop where
  | protected new (hostname : String) (r : Resources) (version : String) :
      Reachable (HostSummary.newHostSummary hostname r version)
  | protected tryMatch (a : HostSummary) (f : HostFilter) (fresh : String)
      (h : Reachable a) (hfresh : fresh ≠ "") :
      Reachable (a.tryMatch f fresh).snd
  | protected completeLease (a : HostSummary) (lease : String)
      (pods : List (String × Resources)) (h : Reachable a) :
      Reachable (a.completeLease lease pods).snd
  | protected terminateLease (a a2 : HostSummary) (h : Reachable a)
      (hok : a.TerminateLease = Except.ok a2) : Reachable a2
  | protected casStatus (a a2 : HostSummary) (old new : HostStatus)
      (fresh : String) (h : Reachable a) (hfresh : fresh ≠ "")
      (hok : a.CasStatus old new fresh = Except.ok a2) : Reachable a2
  | protected releasePodResources (a : HostSummary) (podID : String)
      (h : Reachable a) : Reachable (a.ReleasePodResources podID)

/-! ## Goal-state engine: job action table (`goalstate/job.go`) -/

/-- `job.JobState` of the v0 job API. -/
inductive JobState where
  | INITIALIZED
  | PENDING
  | RUNNING
  | KILLING
  | KILLED
  | SUCCEEDED
  | FAILED
  | UNINITIALIZED
  | UNKNOWN
deriving DecidableEq, Repr

/-- The `JobAction` constants of `goalstate/job.go`. -/
inductive JobAction where
  | NoJobAction
  | CreateTasksAction
  | KillAction
  | UntrackAction
  | JobStateInvalidAction
  | RuntimeUpdateAction
  | EvaluateSLAAction
  | ClearAction
  | EnqeueAction
  | RecoverAction
  | DeleteFromActiveJobsAction
  | StartTasksAction
deriving DecidableEq, Repr

/-- `_isoVersionsJobRules` of `goalstate/job.go`: goal state, then current
state, to action; `none` models absence from the nested Go map. -/
def isoVersionsJobRules (goal current : JobState) : Option JobAction :=
  match goal, current with
  | JobState.RUNNING, JobState.INITIALIZED => some JobAction.CreateTasksAction
  | JobState.RUNNING, JobState.SUCCEEDED => some JobAction.JobStateInvalidAction
  | JobState.RUNNING, JobState.FAILED => some JobAction.JobStateInvalidAction
  | JobState.RUNNING, JobState.KILLING => some JobAction.JobStateInvalidAction
  | JobState.RUNNING, JobState.UNINITIALIZED => some JobAction.RecoverAction
  | JobState.SUCCEEDED, JobState.INITIALIZED => some JobAction.CreateTasksAction
  | JobState.SUCCEEDED, JobState.SUCCEEDED => some JobAction.UntrackAction
  | JobState.SUCCEEDED, JobState.FAILED => some JobAction.UntrackAction
  | JobState.SUCCEEDED, JobState.KILLED => some JobAction.UntrackAction
  | JobState.SUCCEEDED, JobState.KILLING => some JobAction.JobStateInvalidAction
  | JobState.SUCCEEDED, JobState.UNINITIALIZED => some JobAction.RecoverAction
  | JobState.KILLED, JobState.SUCCEEDED => some JobAction.UntrackAction
  | JobState.KILLED, JobState.FAILED => some JobAction.UntrackAction
  | JobState.KILLED, JobState.KILLED => some JobAction.UntrackAction
  | JobState.KILLED, JobState.UNINITIALIZED => some JobAction.UntrackAction
  | JobState.KILLED, JobState.INITIALIZED => some JobAction.KillAction
  | JobState.KILLED, JobState.PENDING => some JobAction.KillAction
  | JobState.KILLED, JobState.RUNNING => some JobAction.KillAction
  | JobState.FAILED, JobState.INITIALIZED => some JobAction.JobStateInvalidAction
  | JobState.FAILED, JobState.PENDING => some JobAction.JobStateInvalidAction
  | JobState.FAILED, JobState.RUNNING => some JobAction.JobStateInvalidAction
  | JobState.FAILED, JobState.SUCCEEDED => some JobAction.JobStateInvalidAction
  | JobState.FAILED, JobState.FAILED => some JobAction.JobStateInvalidAction
  | JobState.FAILED, JobState.KILLED => some JobAction.JobStateInvalidAction
  | JobState.FAILED, JobState.KILLING => some JobAction.JobStateInvalidAction
  | JobState.FAILED, JobState.UNINITIALIZED => some JobAction.JobStateInvalidAction
  | _, _ => none

/-- `cached.JobStateVector`: a job state together with its state version. -/
structure JobStateVector where
  state : JobState
  stateVersion : Nat
deriving DecidableEq, Repr

/-- `suggestJobAction` of `goalstate/job.go`: the state-version divergence
branch for goal RUNNING, then the `_isoVersionsJobRules` lookup defaulting
to `NoJobAction`. -/
def suggestJobAction (state goalState : JobStateVector) : JobAction :=
  if state.stateVersion < goalState.stateVersion ∧
      goalState.state = JobState.RUNNING then
    if state.state = JobState.INITIALIZED then
      JobAction.CreateTasksAction
    else
      JobAction.StartTasksAction
  else
    match isoVersionsJobRules goalState.state state.state with
    | some a => a
    | none => JobAction.NoJobAction

/-! ## Goal-state engine: task action table (`goalstate/task.go`) -/

/-- `task.TaskState` of the v0 task API (the states used by the embedded
rules). -/
inductive TaskState where
  | INITIALIZED
  | PENDING
  | LAUNCHING
  | LAUNCHED
  | STARTING
  | RUNNING
  | SUCCEEDED
  | FAILED
  | LOST
  | KILLING
  | KILLED
deriving DecidableEq, Repr

/-- The `tracked.TaskAction` constants referenced by `goalstate/task.go`. -/
inductive TaskAction where
  | NoAction
  | StartAction
  | StopAction
  | UseGoalVersionAction
  | UntrackAction
deriving DecidableEq, Repr

/-- `_isoVersionsTaskRules` of `goalstate/task.go`: goal state, then current
state, to action; `none` models absence from the nested Go map. -/
def isoVersionsTaskRules (goal current : TaskState) : Option TaskAction :=
  match goal, current with
  | TaskState.RUNNING, TaskState.INITIALIZED => some TaskAction.StartAction
  | TaskState.SUCCEEDED, TaskState.INITIALIZED => some TaskAction.StartAction
  | TaskState.SUCCEEDED, TaskState.SUCCEEDED => some TaskAction.UntrackAction
  | TaskState.SUCCEEDED, TaskState.KILLED => some TaskAction.UntrackAction
  | TaskState.KILLED, TaskState.INITIALIZED => some TaskAction.StopAction
  | TaskState.KILLED, TaskState.LAUNCHING => some TaskAction.StopAction
  | TaskState.KILLED, TaskState.LAUNCHED => some TaskAction.StopAction
  | TaskState.KILLED, TaskState.RUNNING => some TaskAction.StopAction
  | TaskState.KILLED, TaskState.KILLED => some TaskAction.UntrackAction
  | TaskState.KILLED, TaskState.SUCCEEDED => some TaskAction.UntrackAction
  | TaskState.KILLED, TaskState.FAILED => some TaskAction.UntrackAction
  | TaskState.FAILED, TaskState.FAILED => some TaskAction.UntrackAction
  | TaskState.FAILED, TaskState.SUCCEEDED => some TaskAction.UntrackAction
  | TaskState.FAILED, TaskState.KILLED => some TaskAction.UntrackAction
  | _, _ => none

/-- Modelled from the spec: `util.IsPelotonStateTerminal` (the `util`
package is not part of the snippet).  The terminal task states are the
states a task cannot leave: SUCCEEDED, FAILED, LOST and KILLED. -/
def isPelotonStateTerminal (s : TaskState) : Bool :=
  match s with
  | TaskState.SUCCEEDED => true
  | TaskState.FAILED => true
  | TaskState.LOST => true
  | TaskState.KILLED => true
  | _ => false

/-- A task state with its config version.  `none` models the
`tracked.UnknownVersion` sentinel used when a version could not be
loaded. -/
structure TaskStateVector where
  state : TaskState
  configVersion : Option Nat
deriving DecidableEq, Repr

/-- The `_isoVersionsTaskRules` lookup of `suggestTaskAction`, defaulting to
`NoAction`. -/
def taskRulesLookup (goal current : TaskState) : TaskAction :=
  match isoVersionsTaskRules goal current with
  | some a => a
  | none => TaskAction.NoAction

/-- `suggestTaskAction` of `goalstate/task.go`: on a config-version mismatch
with both versions known, a terminal current state switches to the goal
version and a non-terminal one stops; otherwise (versions equal, or either
version unknown) the rules table decides. -/
def suggestTaskAction (currentState goalState : TaskStateVector) : TaskAction :=
  if currentState.configVersion ≠ goalState.configVersion then
    if currentState.configVersion = none ∨ goalState.configVersion = none then
      taskRulesLookup goalState.state currentState.state
    else if isPelotonStateTerminal currentState.state then
      TaskAction.UseGoalVersionAction
    else
      TaskAction.StopAction
  else
    taskRulesLookup goalState.state currentState.state

/-! ## Leaf resource pool (`resmgr/respool`), modelled from the spec

The `resmgr/respool` implementation is not part of the snippet; only its
tests are.  The pending queue, `EnqueueGang` and `DequeueGangList` below are
modelled from the spec (sections 4.B and 4.C) and the expectations of
`respool_test.go`. -/

/-- Modelled from the spec: a resource-manager task, reduced to the fields
the queue operations consume (priority and resource demand). -/
structure RTask where
  name : String
  priority : Nat
  resource : Resources
deriving DecidableEq, Repr

/-- Modelled from the spec: a gang is a set of tasks scheduled
all-or-nothing; a lone task is a gang of size 1. -/
abbrev Gang := List RTask

/-- The priority of a gang is the priority of its tasks (taken from the
first member; `MakeTaskGang` builds single-task gangs). -/
def gangPriority (g : Gang) : Nat :=
  match g with
  | [] => 0
  | t :: _ => t.priority

/-- The aggregate resource demand of a gang. -/
def gangResources (g : Gang) : Resources :=
  g.foldl (fun acc t => acc.add t.resource) Resources.zero

/-- Modelled from the spec: priority-queue insertion — higher priority
first, FIFO within equal priority.  The queue list is kept in dequeue
order. -/
def pqEnqueue (q : List Gang) (g : Gang) : List Gang :=
  match q with
  | [] => [g]
  | h :: t =>
      if gangPriority g ≤ gangPriority h then
        h :: pqEnqueue t g
      else
        g :: h :: t

/-- Errors of the modelled resource-pool operations. -/
inductive RespoolError where
  | emptyGang
  | invalidLimit
  | emptyQueue
  | insufficientResources
deriving DecidableEq, Repr

/-- Modelled from the spec: a leaf resource pool reduced to the state the
queue operations consume — the pending queue in dequeue order, the current
entitlement and the current allocation. -/
structure ResPool where
  pendingQueue : List Gang
  entitlement : Resources
  allocation : Resources
deriving DecidableEq, Repr

/-- Modelled from the spec: `EnqueueGang(g)` fails if `g` is empty,
otherwise appends `g` to its priority lane. -/
def EnqueueGang (p : ResPool) (g : Gang) : Except RespoolError ResPool :=
  if g.isEmpty then
    Except.error RespoolError.emptyGang
  else
    Except.ok { p with pendingQueue := pqEnqueue p.pendingQueue g }

/-- The dequeue loop of `DequeueGangList`: a pool is dequeue-eligible for
the head-of-line gang iff allocation plus the gang's demand fits the
entitlement; a non-fitting head gang blocks (it is not skipped), producing
an error when nothing was dequeued yet. -/
def dequeueLoop : Nat → ResPool → List Gang →
    Except RespoolError (List Gang × ResPool)
  | 0, p, acc => Except.ok (acc.reverse, p)
  | n + 1, p, acc =>
      match p.pendingQueue with
      | [] =>
          if acc.isEmpty then
            Except.error RespoolError.emptyQueue
          else
            Except.ok (acc.reverse, p)
      | g :: rest =>
          if p.entitlement.contains (p.allocation.add (gangResources g)) then
            dequeueLoop n
              { p with
                  pendingQueue := rest
                  allocation := p.allocation.add (gangResources g) }
              (g :: acc)
          else if acc.isEmpty then
            Except.error RespoolError.insufficientResources
          else
            Except.ok (acc.reverse, p)

/-- Modelled from the spec: `DequeueGangList(n)` with `n ≤ 0` fails;
otherwise it drains up to `n` gangs in priority-FIFO order, head-blocking
on the first gang that does not fit the entitlement. -/
def DequeueGangList (p : ResPool) (limit : Int) :
    Except RespoolError (List Gang × ResPool) :=
  if limit ≤ 0 then
    Except.error RespoolError.invalidLimit
  else
    dequeueLoop limit.toNat p []

/-! ## Example inputs (used by witnesses and counterexamples) -/

/-- A host locked by a placement engine with lease "L" (the state after the
MATCH of spec scenario 4). -/
def hostPlacingL : HostSummary :=
  { hostname := "h1"
    capacity := ⟨4, 8192, 100000, 0⟩
    allocated := Resources.zero
    podToResMap := []
    heldPodIDs := []
    status := HostStatus.PlacingHost
    leaseID := "L"
    version := "v1" }

/-- A ready host with no lease. -/
def hostReady0 : HostSummary :=
  { hostname := "h2"
    capacity := ⟨4, 8192, 100000, 0⟩
    allocated := Resources.zero
    podToResMap := []
    heldPodIDs := []
    status := HostStatus.ReadyHost
    leaseID := emptyLeaseID
    version := "v1" }

/-- An overcommitted ready host: allocation exceeds capacity. -/
def hostOvercommitted : HostSummary :=
  { hostname := "h3"
    capacity := Resources.zero
    allocated := ⟨1, 1, 1, 1⟩
    podToResMap := [("pod0", ⟨1, 1, 1, 1⟩)]
    heldPodIDs := []
    status := HostStatus.ReadyHost
    leaseID := emptyLeaseID
    version := "v1" }

/-- The new-pod map of spec scenario 4. -/
def podsScenario4 : List (String × Resources) := [("pod1", ⟨1, 1024, 0, 0⟩)]

/-- A filter with no hints and no minimum resource constraint. -/
def filterNone : HostFilter := { hostHints := [], minimum := none }

/-- The head-blocked gang of spec scenario 3: a single task demanding
cpu=200 at priority 3. -/
def bigGang : Gang :=
  [{ name := "job3-1", priority := 3, resource := ⟨200, 100, 10, 0⟩ }]

/-- The pool of spec scenario 3, entitled to cpu=100. -/
def poolBlocked : ResPool :=
  { pendingQueue := [bigGang]
    entitlement := ⟨100, 1000, 100, 2⟩
    allocation := Resources.zero }

/-- The raised entitlement of spec scenario 3 (cpu cap 500). -/
def entRaised : Resources := ⟨500, 1000, 100, 2⟩

/-! ## Helper lemmas -/

theorem casStatus_eq_ok {a : HostSummary} {old : HostStatus} (nw : HostStatus)
    (fresh : String) (hs : a.status = old) :
    a.casStatus old nw fresh =
      Except.ok { a with
        status := nw
        leaseID :=
          match nw with
          | HostStatus.PlacingHost => fresh
          | HostStatus.ReservedHost => fresh
          | _ => emptyLeaseID } := by
  unfold HostSummary.casStatus
  rw [if_neg (by simp [hs])]
  cases nw <;> rfl

theorem casStatus_eq_error {a : HostSummary} {old : HostStatus}
    (nw : HostStatus) (fresh : String) (hs : a.status ≠ old) :
    a.casStatus old nw fresh = Except.error "Invalid old status" := by
  unfold HostSummary.casStatus
  rw [if_pos hs]

theorem casStatus_ok_fields {a a2 : HostSummary} {old nw : HostStatus}
    {fresh : String} (h : a.casStatus old nw fresh = Except.ok a2) :
    a.status = old ∧ a2.status = nw ∧
    a2.leaseID = (match nw with
      | HostStatus.PlacingHost => fresh
      | HostStatus.ReservedHost => fresh
      | _ => emptyLeaseID) ∧
    a2.hostname = a.hostname ∧ a2.capacity = a.capacity ∧
    a2.allocated = a.allocated ∧ a2.podToResMap = a.podToResMap ∧
    a2.heldPodIDs = a.heldPodIDs ∧ a2.version = a.version := by
  by_cases hs : a.status = old
  · rw [casStatus_eq_ok nw fresh hs] at h
    simp only [Except.ok.injEq] at h
    subst h
    cases nw <;> simp [hs]
  · rw [casStatus_eq_error nw fresh hs] at h
    exact absurd h (by simp)

theorem getResetStatus_ready_or_held (a : HostSummary) :
    a.getResetStatus = HostStatus.ReadyHost ∨
      a.getResetStatus = HostStatus.HeldHost := by
  unfold HostSummary.getResetStatus
  split <;> simp

theorem leaseInv_newHostSummary (hn : String) (r : Resources) (v : String) :
    LeaseInv (HostSummary.newHostSummary hn r v) := by
  simp [LeaseInv, HostSummary.newHostSummary, emptyLeaseID]

theorem leaseInv_casStatus_ok {a a2 : HostSummary} {old nw : HostStatus}
    {fresh : String} (hok : a.casStatus old nw fresh = Except.ok a2)
    (hfresh : fresh ≠ "" ∨ nw = HostStatus.ReadyHost ∨ nw = HostStatus.HeldHost) :
    LeaseInv a2 := by
  obtain ⟨-, hst, hlease, -⟩ := casStatus_ok_fields hok
  cases nw with
  | ReadyHost => simp [LeaseInv, hst, hlease, emptyLeaseID]
  | HeldHost => simp [LeaseInv, hst, hlease, emptyLeaseID]
  | PlacingHost =>
      have hf : fresh ≠ "" := by
        rcases hfresh with hf | hf | hf
        · exact hf
        · exact absurd hf (by simp)
        · exact absurd hf (by simp)
      simp [LeaseInv, hst, hlease, emptyLeaseID, hf]
  | ReservedHost =>
      have hf : fresh ≠ "" := by
        rcases hfresh with hf | hf | hf
        · exact hf
        · exact absurd hf (by simp)
        · exact absurd hf (by simp)
      simp [LeaseInv, hst, hlease, emptyLeaseID, hf]

theorem leaseInv_updatePodToResMap {a : HostSummary}
    (pods : List (String × Resources)) (h : LeaseInv a) :
    LeaseInv (a.updatePodToResMap pods) := h

theorem leaseInv_tryMatch {a : HostSummary} (f : HostFilter) {fresh : String}
    (hinv : LeaseInv a) (hfresh : fresh ≠ "") :
    LeaseInv (a.tryMatch f fresh).snd := by
  unfold HostSummary.tryMatch
  split
  · exact hinv
  split
  · exact hinv
  split
  · dsimp only
    split
    · exact hinv
    · exact hinv
  · rename_i a2 hok
    dsimp only
    split
    · exact hinv
    · exact leaseInv_casStatus_ok hok (Or.inl hfresh)

theorem leaseInv_completeLease {a : HostSummary} (lease : String)
    (pods : List (String × Resources)) (hinv : LeaseInv a) :
    LeaseInv (a.completeLease lease pods).snd := by
  unfold HostSummary.completeLease
  split
  · exact hinv
  split
  · exact hinv
  split
  · exact hinv
  · rename_i a2 hok
    have h2 : LeaseInv a2 :=
      leaseInv_casStatus_ok hok (Or.inr (getResetStatus_ready_or_held a))
    split
    · exact h2
    · exact leaseInv_updatePodToResMap pods h2

theorem leaseInv_terminateLease {a a2 : HostSummary}
    (hok : a.TerminateLease = Except.ok a2) : LeaseInv a2 := by
  unfold HostSummary.TerminateLease at hok
  split at hok
  · exact absurd hok (by simp)
  split at hok
  · exact absurd hok (by simp)
  · rename_i a3 hcas
    simp only [Except.ok.injEq] at hok
    subst hok
    exact leaseInv_casStatus_ok hcas (Or.inr (getResetStatus_ready_or_held a))

theorem leaseInv_CasStatus {a a2 : HostSummary} {old nw : HostStatus}
    {fresh : String} (hfresh : fresh ≠ "")
    (hok : a.CasStatus old nw fresh = Except.ok a2) : LeaseInv a2 := by
  unfold HostSummary.CasStatus at hok
  split at hok
  · exact absurd hok (by simp)
  · rename_i a3 hcas
    simp only [Except.ok.injEq] at hok
    subst hok
    exact leaseInv_casStatus_ok hcas (Or.inl hfresh)

theorem leaseInv_release {a : HostSummary} (podID : String)
    (h : LeaseInv a) : LeaseInv (a.ReleasePodResources podID) := by
  unfold HostSummary.ReleasePodResources
  split
  · exact h
  · exact h

theorem hint_any_iff (hints : List String) (hn : String) :
    (hints.any (fun h => decide (h = hn)) = true) ↔ hn ∈ hints := by
  simp [List.any_eq_true]

theorem dequeueLoop_cons (n : Nat) (p : ResPool) (acc : List Gang) (g : Gang)
    (rest : List Gang) (hq : p.pendingQueue = g :: rest) :
    dequeueLoop (n + 1) p acc =
      if p.entitlement.contains (p.allocation.add (gangResources g)) then
        dequeueLoop n
          { p with
              pendingQueue := rest
              allocation := p.allocation.add (gangResources g) }
          (g :: acc)
      else if acc.isEmpty then
        Except.error RespoolError.insufficientResources
      else
        Except.ok (acc.reverse, p) := by
  conv_lhs => rw [dequeueLoop]
  rw [hq]

theorem validateNewPods_irrelevant (a : HostSummary) (st : HostStatus)
    (lid : String) (pods : List (String × Resources)) :
    ({ a with status := st, leaseID := lid } : HostSummary).validateNewPods
        pods =
      a.validateNewPods pods := rfl

/-! ## Claims -/

/-- C1: when the host is Placing and the supplied leaseID matches,
`CompleteLease` first resets the status to Ready (or Held when pods are
held), clearing the leaseID, and only then validates the new pods; a
validation failure yields an error with the pod map and allocation
untouched — but the host is no longer Placing. -/
theorem c1_completeLease_resets_then_validates (a : HostSummary)
    (lease : String) (pods : List (String × Resources))
    (hst : a.status = HostStatus.PlacingHost) (hlease : a.leaseID = lease) :
    ((a.completeLease lease pods).snd.status =
      if a.heldPodIDs.isEmpty then HostStatus.ReadyHost
      else HostStatus.HeldHost) ∧
    (a.completeLease lease pods).snd.leaseID = emptyLeaseID ∧
    (∀ e, a.validateNewPods pods = Except.error e →
      (a.completeLease lease pods).fst = some ("pod validation failed: " ++ e) ∧
      (a.completeLease lease pods).snd.podToResMap = a.podToResMap ∧
      (a.completeLease lease pods).snd.allocated = a.allocated) ∧
    (a.validateNewPods pods = Except.ok () →
      (a.completeLease lease pods).fst = none) := by
  have hcl : a.completeLease lease pods =
      (match a.validateNewPods pods with
        | Except.error e =>
            (some ("pod validation failed: " ++ e),
              { a with status := a.getResetStatus, leaseID := emptyLeaseID })
        | Except.ok _ =>
            (none,
              HostSummary.updatePodToResMap
                { a with status := a.getResetStatus, leaseID := emptyLeaseID }
                pods)) := by
    unfold HostSummary.completeLease
    rw [if_neg (by simp [hst]), if_neg (by simp [hlease]),
      casStatus_eq_ok a.getResetStatus emptyLeaseID hst]
    rcases getResetStatus_ready_or_held a with hrs | hrs <;>
      rw [hrs] <;> dsimp only <;> rw [validateNewPods_irrelevant]
  rw [show (if a.heldPodIDs.isEmpty then HostStatus.ReadyHost
      else HostStatus.HeldHost) = a.getResetStatus from rfl]
  rw [hcl]
  cases hval : a.validateNewPods pods with
  | error e =>
      refine ⟨rfl, rfl, ?_, ?_⟩
      · intro e2 he2
        cases he2
        exact ⟨rfl, rfl, rfl⟩
      · intro hok
        exact absurd hok (by simp)
  | ok u =>
      refine ⟨rfl, rfl, ?_, fun _ => rfl⟩
      intro e2 he2
      exact absurd he2 (by simp)

/-- Witness for C1 at spec scenario 4: completing lease "L" with pod1
succeeds and the host returns to Ready. -/
theorem c1_completeLease_witness :
    (hostPlacingL.completeLease "L" podsScenario4).fst = none := by
  have hv : hostPlacingL.validateNewPods podsScenario4 = Except.ok () := by
    simp [HostSummary.validateNewPods, hostPlacingL, podsScenario4, podLookup,
      sumPodRes, HostSummary.getAvailable, Resources.trySubtract,
      Resources.contains, Resources.add, Resources.zero]
    norm_num
  exact (c1_completeLease_resets_then_validates hostPlacingL "L" podsScenario4
    rfl rfl).2.2.2 hv

/-- C2: `TryMatch` returns MISMATCH_STATUS when the status is neither Ready
nor Held and when the status is Held without a hint naming this host; with
an unsatisfied minimum resource requirement it returns
INSUFFICIENT_RESOURCES leaving the summary unchanged; and on MATCH the host
is Placing. -/
theorem c2_try_match (a : HostSummary) (f : HostFilter) (fresh : String) :
    ((a.status ≠ HostStatus.ReadyHost ∧ a.status ≠ HostStatus.HeldHost) →
      a.tryMatch f fresh = (HostFilterResult.MismatchStatus, a)) ∧
    ((a.status = HostStatus.HeldHost ∧ a.hostname ∉ f.hostHints) →
      a.tryMatch f fresh = (HostFilterResult.MismatchStatus, a)) ∧
    ((a.status = HostStatus.ReadyHost ∨
        (a.status = HostStatus.HeldHost ∧ a.hostname ∈ f.hostHints)) →
      ∀ m, f.minimum = some m → a.getAvailable.contains m = false →
        a.tryMatch f fresh = (HostFilterResult.InsufficientResources, a)) ∧
    (∀ a2, a.tryMatch f fresh = (HostFilterResult.MatchFound, a2) →
      a2.status = HostStatus.PlacingHost) := by
  have hmhf : ∀ m, f.minimum = some m → a.getAvailable.contains m = false →
      a.matchHostFilter f = HostFilterResult.InsufficientResources := by
    intro m hm hcont
    unfold HostSummary.matchHostFilter
    rw [hm]
    dsimp only
    rw [hcont]
    rfl
  refine ⟨?_, ?_, ?_, ?_⟩
  · intro h
    unfold HostSummary.tryMatch
    rw [if_pos h]
  · rintro ⟨hheld, hnot⟩
    unfold HostSummary.tryMatch
    rw [if_neg (by simp [hheld]),
      if_pos ⟨hheld, fun hc => hnot ((hint_any_iff f.hostHints a.hostname).mp hc)⟩]
  · rintro (hready | ⟨hheld, hmem⟩) m hm hcont
    · unfold HostSummary.tryMatch
      rw [if_neg (by simp [hready]), if_neg (by simp [hready])]
      dsimp only
      rw [hmhf m hm hcont]
      rfl
    · unfold HostSummary.tryMatch
      rw [if_neg (by simp [hheld]),
        if_neg (by simp [hheld, (hint_any_iff f.hostHints a.hostname).mpr hmem])]
      dsimp only
      rw [hmhf m hm hcont]
      rfl
  · intro a2 heq
    unfold HostSummary.tryMatch at heq
    split at heq
    · exact absurd heq (by simp)
    split at heq
    · exact absurd heq (by simp)
    dsimp only at heq
    split at heq
    · rename_i hne
      exact absurd (congrArg Prod.fst heq) (by simpa using hne)
    split at heq
    · exact absurd heq (by simp)
    · rename_i a3 hok
      simp only [Prod.mk.injEq] at heq
      obtain ⟨-, rfl⟩ := heq
      exact (casStatus_ok_fields hok).2.1

/-- Witness for C2 at a Placing host (neither Ready nor Held): mismatch. -/
theorem c2_try_match_witness :
    hostPlacingL.tryMatch filterNone "F" =
      (HostFilterResult.MismatchStatus, hostPlacingL) :=
  (c2_try_match hostPlacingL filterNone "F").1 (by decide)

/-- C4: completing a lease with a stale leaseID fails with an error and
leaves the summary unchanged (still Placing, same leaseID, pod map and
allocation); a subsequent `TerminateLease` succeeds and resets the status
to Ready (or Held when pods are held). -/
theorem c4_stale_lease (a : HostSummary) (lease : String)
    (pods : List (String × Resources))
    (hst : a.status = HostStatus.PlacingHost) (hlease : lease ≠ a.leaseID) :
    a.completeLease lease pods = (some "host leaseID does not match", a) ∧
    ∃ a2, a.TerminateLease = Except.ok a2 ∧
      a2.status = (if a.heldPodIDs.isEmpty then HostStatus.ReadyHost
        else HostStatus.HeldHost) ∧
      a2.leaseID = emptyLeaseID ∧
      a2.podToResMap = a.podToResMap ∧ a2.allocated = a.allocated := by
  constructor
  · unfold HostSummary.completeLease
    rw [if_neg (by simp [hst]), if_pos (fun h => hlease h.symm)]
  · refine ⟨{ a with status := a.getResetStatus, leaseID := emptyLeaseID },
      ?_, rfl, rfl, rfl, rfl⟩
    unfold HostSummary.TerminateLease
    rw [if_neg (by simp [hst]),
      casStatus_eq_ok a.getResetStatus emptyLeaseID hst]
    rcases getResetStatus_ready_or_held a with hrs | hrs <;> rw [hrs]

/-- Witness for C4 at spec scenario 5: `CompleteLease("other", ...)` on the
host leased as "L". -/
theorem c4_stale_lease_witness :
    hostPlacingL.completeLease "other" podsScenario4 =
      (some "host leaseID does not match", hostPlacingL) :=
  (c4_stale_lease hostPlacingL "other" podsScenario4 rfl (by decide)).1

/-- C10: a Ready host matches a filter with no minimum resource requirement
regardless of allocation — availability is only checked when a minimum is
present — and transitions to Placing. -/
theorem c10_nil_minimum_matches (a : HostSummary) (f : HostFilter)
    (fresh : String) (hst : a.status = HostStatus.ReadyHost)
    (hmin : f.minimum = none) :
    a.tryMatch f fresh =
      (HostFilterResult.MatchFound,
        { a with status := HostStatus.PlacingHost, leaseID := fresh }) := by
  unfold HostSummary.tryMatch
  rw [if_neg (by simp [hst]), if_neg (by simp [hst])]
  dsimp only
  rw [show a.matchHostFilter f = HostFilterResult.MatchFound
    from by unfold HostSummary.matchHostFilter; rw [hmin]]
  rw [if_neg (by simp), casStatus_eq_ok HostStatus.PlacingHost fresh rfl]

/-- Witness for C10 at an overcommitted Ready host (allocation exceeds
capacity): the nil-minimum filter still matches. -/
theorem c10_nil_minimum_matches_witness :
    hostOvercommitted.tryMatch filterNone "F" =
      (HostFilterResult.MatchFound,
        { hostOvercommitted with status := HostStatus.PlacingHost, leaseID := "F" }) :=
  c10_nil_minimum_matches hostOvercommitted filterNone "F" rfl rfl

/-- C6: a leaf pool whose head-of-line gang does not fit the entitlement
head-blocks: `DequeueGangList(1)` fails with the insufficient-resources
error and the pool is unchanged (the error return carries no new state, so
the gang is neither removed nor skipped); after raising the entitlement so
that the gang fits, the same call succeeds and returns exactly that gang. -/
theorem c6_head_of_line_blocking (p : ResPool) (g : Gang) (rest : List Gang)
    (e2 : Resources) (hq : p.pendingQueue = g :: rest)
    (hblock : p.entitlement.contains (p.allocation.add (gangResources g)) = false)
    (hfit : e2.contains (p.allocation.add (gangResources g)) = true) :
    DequeueGangList p 1 = Except.error RespoolError.insufficientResources ∧
    DequeueGangList { p with entitlement := e2 } 1 =
      Except.ok ([g],
        { pendingQueue := rest
          entitlement := e2
          allocation := p.allocation.add (gangResources g) }) := by
  have h1 : (1 : Int).toNat = 0 + 1 := rfl
  constructor
  · unfold DequeueGangList
    rw [if_neg (by norm_num), h1, dequeueLoop_cons 0 p [] g rest hq,
      if_neg (by rw [hblock]; exact Bool.false_ne_true)]
    rfl
  · unfold DequeueGangList
    rw [if_neg (by norm_num), h1,
      dequeueLoop_cons 0 { p with entitlement := e2 } [] g rest hq,
      if_pos hfit]
    rfl

/-- Witness for C6 at spec scenario 3: gang cpu=200 in a pool entitled to
cpu=100 blocks; with the cpu entitlement raised to 500 it dequeues. -/
theorem c6_head_of_line_blocking_witness :
    DequeueGangList poolBlocked 1 =
      Except.error RespoolError.insufficientResources ∧
    DequeueGangList { poolBlocked with entitlement := entRaised } 1 =
      Except.ok ([bigGang],
        { pendingQueue := []
          entitlement := entRaised
          allocation := poolBlocked.allocation.add (gangResources bigGang) }) :=
  c6_head_of_line_blocking poolBlocked bigGang [] entRaised rfl
    (by
      simp [poolBlocked, bigGang, gangResources, Resources.add, Resources.zero,
        Resources.contains]
      norm_num)
    (by
      simp [poolBlocked, bigGang, entRaised, gangResources, Resources.add,
        Resources.zero, Resources.contains]
      norm_num)

/-- C8 fails as stated: when the current configVersion is the unknown
sentinel it differs from the goal configVersion, yet `suggestTaskAction`
ignores the mismatch and consults the rules table — here yielding Start,
not the Stop the claim requires for a non-terminal current state. -/
theorem c8_counterexample :
    (⟨TaskState.INITIALIZED, none⟩ : TaskStateVector).configVersion ≠
      (⟨TaskState.RUNNING, some 1⟩ : TaskStateVector).configVersion ∧
    isPelotonStateTerminal TaskState.INITIALIZED = false ∧
    suggestTaskAction ⟨TaskState.INITIALIZED, none⟩ ⟨TaskState.RUNNING, some 1⟩ =
      TaskAction.StartAction ∧
    TaskAction.StartAction ≠ TaskAction.StopAction := by decide

/-- C8 (amended): on a config-version mismatch in which neither version is
the unknown sentinel, the suggested action is the switch-to-goal-version
action for a terminal current state and Stop otherwise; the state-vs-goal
table is consulted when the versions agree or when either version is
unknown. -/
theorem c8_version_mismatch_amended (cur goal : TaskStateVector)
    (hne : cur.configVersion ≠ goal.configVersion)
    (hcu : cur.configVersion ≠ none) (hgu : goal.configVersion ≠ none) :
    (suggestTaskAction cur goal =
      if isPelotonStateTerminal cur.state then TaskAction.UseGoalVersionAction
      else TaskAction.StopAction) ∧
    (∀ c g : TaskStateVector,
      c.configVersion = g.configVersion ∨ c.configVersion = none ∨
        g.configVersion = none →
      suggestTaskAction c g = taskRulesLookup g.state c.state) := by
  constructor
  · unfold suggestTaskAction
    rw [if_pos hne, if_neg (by simp [hcu, hgu])]
  · intro c g h
    unfold suggestTaskAction
    by_cases hv : c.configVersion = g.configVersion
    · rw [if_neg (by simp [hv])]
    · have hnone : c.configVersion = none ∨ g.configVersion = none := by
        rcases h with h | h | h
        · exact absurd h hv
        · exact Or.inl h
        · exact Or.inr h
      rw [if_pos hv, if_pos hnone]

/-- Witness for C8 (amended): a known-version mismatch with a non-terminal
current state yields Stop. -/
theorem c8_version_mismatch_witness :
    suggestTaskAction ⟨TaskState.RUNNING, some 0⟩ ⟨TaskState.KILLED, some 1⟩ =
      TaskAction.StopAction := by
  have h := (c8_version_mismatch_amended ⟨TaskState.RUNNING, some 0⟩
    ⟨TaskState.KILLED, some 1⟩ (by decide) (by decide) (by decide)).1
  simpa [isPelotonStateTerminal] using h

/-- C9: enqueueing an empty gang fails, and `DequeueGangList` with a limit
at most 0 fails; both errors carry no new pool state, so the pending queue
is unchanged. -/
theorem c9_boundary (p : ResPool) (g : Gang) (n : Int) (hg : g = [])
    (hn : n ≤ 0) :
    EnqueueGang p g = Except.error RespoolError.emptyGang ∧
    DequeueGangList p n = Except.error RespoolError.invalidLimit := by
  subst hg
  exact ⟨rfl, by unfold DequeueGangList; rw [if_pos hn]⟩

/-- Witness for C9: the empty gang and limit 0 on the example pool. -/
theorem c9_boundary_witness :
    EnqueueGang poolBlocked [] = Except.error RespoolError.emptyGang ∧
    DequeueGangList poolBlocked 0 = Except.error RespoolError.invalidLimit :=
  c9_boundary poolBlocked [] 0 rfl (by norm_num)

/-- C3: in every host summary state reachable from `newHostSummary` through
the exported operations, the leaseID is non-empty iff the status is Placing
or Reserved; and every `casStatus` transition entering Ready/Held clears the
leaseID while every transition entering Placing/Reserved assigns the freshly
minted UUID. -/
theorem c3_lease_invariant (a : HostSummary) (h : Reachable a) :
    LeaseInv a ∧
    (∀ (old nw : HostStatus) (fresh : String) (a2 : HostSummary),
      a.casStatus old nw fresh = Except.ok a2 →
        (((nw = HostStatus.ReadyHost ∨ nw = HostStatus.HeldHost) →
            a2.leaseID = emptyLeaseID) ∧
         ((nw = HostStatus.PlacingHost ∨ nw = HostStatus.ReservedHost) →
            a2.leaseID = fresh))) := by
  constructor
  · induction h with
    | new hn r v => exact leaseInv_newHostSummary hn r v
    | tryMatch a f fresh h hfresh ih => exact leaseInv_tryMatch f ih hfresh
    | completeLease a lease pods h ih => exact leaseInv_completeLease lease pods ih
    | terminateLease a a2 h hok ih => exact leaseInv_terminateLease hok
    | casStatus a a2 old nw fresh h hfresh hok ih => exact leaseInv_CasStatus hfresh hok
    | releasePodResources a podID h ih => exact leaseInv_release podID ih
  · intro old nw fresh a2 hok
    obtain ⟨-, -, hlease, -⟩ := casStatus_ok_fields hok
    constructor
    · rintro (rfl | rfl) <;> simpa using hlease
    · rintro (rfl | rfl) <;> simpa using hlease

/-- Witness for C3 at the freshly created host summary. -/
theorem c3_lease_invariant_witness :
    LeaseInv (HostSummary.newHostSummary "host1" Resources.zero "v1") :=
  (c3_lease_invariant _ (Reachable.new "host1" Resources.zero "v1")).1

/-- C5 as stated is false: `CasStatus(Placing, Placing)` succeeds but mints
a new leaseID, so it is not a no-op on every field.  At `hostPlacingL`
(leaseID "L") with minted UUID "M" the call succeeds and the resulting
summary differs from the original. -/
theorem c5_counterexample :
    hostPlacingL.CasStatus HostStatus.PlacingHost HostStatus.PlacingHost "M" =
      Except.ok { hostPlacingL with leaseID := "M" } ∧
    ({ hostPlacingL with leaseID := "M" } : HostSummary) ≠ hostPlacingL := by
  constructor
  · rfl
  · intro h
    have h2 := congrArg HostSummary.leaseID h
    simp [hostPlacingL] at h2

/-- C5 (amended): `CasStatus(x,x)` succeeds, leaving every field except the
leaseID unchanged; the leaseID is cleared for x ∈ {Ready, Held} — a true
no-op whenever the lease was already empty — and re-minted for
x ∈ {Placing, Reserved}; `CasStatus(old, new)` with `old` different from the
current status fails without any side effect (the state is returned
unchanged by the error path). -/
theorem c5_cas_status (a : HostSummary) (old nw x : HostStatus)
    (fresh : String) :
    (a.status = x →
      a.CasStatus x x fresh =
        Except.ok { a with leaseID :=
          if x = HostStatus.PlacingHost ∨ x = HostStatus.ReservedHost then
            fresh
          else
            emptyLeaseID }) ∧
    (a.leaseID = emptyLeaseID →
      (x = HostStatus.ReadyHost ∨ x = HostStatus.HeldHost) →
      a.status = x → a.CasStatus x x fresh = Except.ok a) ∧
    (old ≠ a.status → ∃ e, a.CasStatus old nw fresh = Except.error e) := by
  refine ⟨?_, ?_, ?_⟩
  · intro hx
    subst hx
    unfold HostSummary.CasStatus
    rw [casStatus_eq_ok a.status fresh rfl]
    cases hs : a.status <;> simp [hs]
  · intro hl hx hstat
    subst hstat
    unfold HostSummary.CasStatus
    rw [casStatus_eq_ok a.status fresh rfl]
    rcases hx with hx | hx <;> rw [hx] <;> simp [← hl, ← hx]
  · intro hold
    unfold HostSummary.CasStatus
    rw [casStatus_eq_error nw fresh (fun he => hold he.symm)]
    exact ⟨_, rfl⟩

/-- Witness for C5 (amended) at a ready host: the self-CAS is a no-op. -/
theorem c5_cas_status_witness :
    hostReady0.CasStatus HostStatus.ReadyHost HostStatus.ReadyHost "F" =
      Except.ok hostReady0 :=
  (c5_cas_status hostReady0 HostStatus.PlacingHost HostStatus.ReadyHost
      HostStatus.ReadyHost "F").2.1 rfl (Or.inl rfl) rfl

/-- C7: with equal state versions (the case in which the rules table is
consulted), the job action table yields CreateTasks / Recover / StateInvalid
for goal RUNNING from INITIALIZED / UNINITIALIZED / SUCCEEDED-FAILED-KILLING
respectively, and for goal KILLED yields Kill from
INITIALIZED/PENDING/RUNNING and Untrack from the terminal states
SUCCEEDED/FAILED/KILLED. -/
theorem c7_job_action_table (v : Nat) :
    suggestJobAction ⟨JobState.INITIALIZED, v⟩ ⟨JobState.RUNNING, v⟩ =
      JobAction.CreateTasksAction ∧
    suggestJobAction ⟨JobState.UNINITIALIZED, v⟩ ⟨JobState.RUNNING, v⟩ =
      JobAction.RecoverAction ∧
    suggestJobAction ⟨JobState.SUCCEEDED, v⟩ ⟨JobState.RUNNING, v⟩ =
      JobAction.JobStateInvalidAction ∧
    suggestJobAction ⟨JobState.FAILED, v⟩ ⟨JobState.RUNNING, v⟩ =
      JobAction.JobStateInvalidAction ∧
    suggestJobAction ⟨JobState.KILLING, v⟩ ⟨JobState.RUNNING, v⟩ =
      JobAction.JobStateInvalidAction ∧
    suggestJobAction ⟨JobState.INITIALIZED, v⟩ ⟨JobState.KILLED, v⟩ =
      JobAction.KillAction ∧
    suggestJobAction ⟨JobState.PENDING, v⟩ ⟨JobState.KILLED, v⟩ =
      JobAction.KillAction ∧
    suggestJobAction ⟨JobState.RUNNING, v⟩ ⟨JobState.KILLED, v⟩ =
      JobAction.KillAction ∧
    suggestJobAction ⟨JobState.SUCCEEDED, v⟩ ⟨JobState.KILLED, v⟩ =
      JobAction.UntrackAction ∧
    suggestJobAction ⟨JobState.FAILED, v⟩ ⟨JobState.KILLED, v⟩ =
      JobAction.UntrackAction ∧
    suggestJobAction ⟨JobState.KILLED, v⟩ ⟨JobState.KILLED, v⟩ =
      JobAction.UntrackAction := by
  simp [suggestJobAction, isoVersionsJobRules]

end Peloton
